import Mathlib

/-!
Verification of the meanshiftr mean-shift mode-finding code.

The development embeds the C++ sources over the real numbers:
`LittleFunctionsCollection.cpp` and `littleFunctionsImproved.cpp` become pure
real-valued functions, and the three driver functions
(`MeanShift_Classical.cpp`, `meanShiftClassic.cpp`,
`meanShiftClassicImproved.cpp`) become per-seed do-while loops over a point
state, expressed with an explicit loop combinator whose guard and body are
taken verbatim from each source file.
-/

open Classical

/-- A point of the cloud: one row (X, Y, Z) of the input matrix. -/
structure P3 where
  x : ℝ
  y : ℝ
  z : ℝ

/-- The accumulator variables sumx/sumy/sumz/sump of the inner scan loops. -/
structure Sums where
  sumx : ℝ
  sumy : ℝ
  sumz : ℝ
  sump : ℝ

/-- One row of the returned data.frame: original coordinates and mode. -/
structure ResultRow where
  X : ℝ
  Y : ℝ
  Z : ℝ
  modeX : ℝ
  modeY : ℝ
  modeZ : ℝ

/-- std::hypot on reals. -/
noncomputable def hypot (a b : ℝ) : ℝ := Real.sqrt (a ^ 2 + b ^ 2)

/-- InCylinder from LittleFunctionsCollection.cpp, lines 7-16. -/
def InCylinder (x y z radius height centerX centerY centerZ : ℝ) : Prop :=
  (x - centerX) ^ 2 + (y - centerY) ^ 2 ≤ radius ^ 2
    ∧ z ≥ centerZ - 0.5 * height
    ∧ z ≤ centerZ + 0.5 * height

/-- VerticalDistance from LittleFunctionsCollection.cpp, lines 19-30. -/
noncomputable def VerticalDistance (height centerZ pointZ : ℝ) : ℝ :=
  min (|(centerZ - height / 4 - pointZ) / (height * 3 / 8)|)
      (|(centerZ + height / 2 - pointZ) / (height * 3 / 8)|)

/-- VerticalMask from LittleFunctionsCollection.cpp, lines 41-47 (the short
0/1 result is modelled as a real, as it is immediately used in a real
product). -/
noncomputable def VerticalMask (height centerZ pointZ : ℝ) : ℝ :=
  if pointZ ≥ centerZ - height / 4 ∧ pointZ ≤ centerZ + height / 2 then 1 else 0

/-- EpanechnikovFunction from LittleFunctionsCollection.cpp, lines 57-60. -/
noncomputable def EpanechnikovFunction (height centerZ pointZ : ℝ) : ℝ :=
  VerticalMask height centerZ pointZ
    * (1 - (1 - VerticalDistance height centerZ pointZ) ^ 2)

/-- GaussFunction from LittleFunctionsCollection.cpp, lines 70-76. -/
noncomputable def GaussFunction (radius centerX centerY pointX pointY : ℝ) : ℝ :=
  Real.exp (-5 * (hypot (pointX - centerX) (pointY - centerY) / radius) ^ 2)

/-- intersectsCylinder from littleFunctionsImproved.cpp, lines 6-17. -/
def intersectsCylinder
    (pointX pointY pointZ cylinderRadius cylinderHeight centerX centerY centerZ : ℝ) :
    Prop :=
  let topHeight := centerZ + 0.5 * cylinderHeight
  let bottomHeight := topHeight - cylinderHeight
  (pointX - centerX) ^ 2 + (pointY - centerY) ^ 2 ≤ cylinderRadius ^ 2
    ∧ bottomHeight ≤ pointZ ∧ pointZ ≤ topHeight

/-- gauss from littleFunctionsImproved.cpp, lines 44-46. -/
noncomputable def gauss (x : ℝ) : ℝ := Real.exp (-5 * x ^ 2)

/-- epanechnikov from littleFunctionsImproved.cpp, lines 52-54. -/
def epanechnikov (x : ℝ) : ℝ := 1 - x ^ 2

/-- calculateVerticalWeight from littleFunctionsImproved.cpp, lines 20-27. -/
noncomputable def calculateVerticalWeight (pointZ cylinderMiddleZ cylinderHeight : ℝ) : ℝ :=
  epanechnikov (|cylinderMiddleZ - pointZ| / (cylinderHeight * 0.5))

/-- calculateHorizontalWeight from littleFunctionsImproved.cpp, lines 29-37. -/
noncomputable def calculateHorizontalWeight
    (pointX pointY cylinderRadius centerX centerY : ℝ) : ℝ :=
  gauss (hypot (centerX - pointX) (centerY - pointY) / cylinderRadius)

/-! ## Driver embeddings

Each driver's per-seed do-while loop is an instance of a shared `doWhile`
combinator: the loop body is executed once, the iteration counter is
incremented, and the loop re-executes exactly when the driver's
continue-condition holds for (old centroid, new centroid) and the counter is
still below the iteration budget — precisely the shape of the three C++
do-while statements. -/

/-- The do-while shape shared by the three drivers: run `body` once, bump the
counter, recurse while `cont old new` holds and the counter stays below
`maxIter`. Returns the final centroid and the final counter value. -/
noncomputable def doWhile (body : P3 → P3) (cont : P3 → P3 → Prop)
    (maxIter : ℕ) (centroid : P3) (iter : ℕ) : P3 × ℕ :=
  if h : cont centroid (body centroid) ∧ iter + 1 < maxIter then
    doWhile body cont maxIter (body centroid) (iter + 1)
  else
    (body centroid, iter + 1)
termination_by maxIter - iter
decreasing_by omega

/-- Inner j-loop of MeanShift_Classical.cpp, lines 90-125. Note the source
assigns `jx = pc(i, 0)`, `jy = pc(i, 1)`, `jz = pc(i, 2)` — the SEED's row i —
inside the loop over j, so every turn of the loop reads the seed's coordinates
and the loop variable j only counts the rows. -/
noncomputable def MeanShift_Classical_scan (pc : List P3) (seed : P3)
    (UniformKernel : Bool) (radius height centroidX centroidY centroidZ : ℝ) : Sums :=
  pc.foldl (fun s _row =>
    let jx := seed.x
    let jy := seed.y
    let jz := seed.z
    if InCylinder jx jy jz radius height centroidX centroidY centroidZ then
      if UniformKernel then
        ⟨s.sumx + jx, s.sumy + jy, s.sumz + jz, s.sump + 1⟩
      else
        let verticalweight := EpanechnikovFunction height centroidZ jz
        let horizontalweight := GaussFunction radius centroidX centroidY jx jy
        let weight := verticalweight * horizontalweight
        ⟨s.sumx + weight * jx, s.sumy + weight * jy, s.sumz + weight * jz,
          s.sump + weight⟩
    else s) ⟨0, 0, 0, 0⟩

/-- One iteration body of MeanShift_Classical.cpp, lines 72-129: cylinder
dimensions from the current centroid, full scan, then the weighted average. -/
noncomputable def MeanShift_Classical_body (pc : List P3)
    (CD2TH_fac CH2TH_fac : ℝ) (UniformKernel : Bool) (seed centroid : P3) : P3 :=
  let radius := CD2TH_fac * centroid.z * 0.5
  let height := CH2TH_fac * centroid.z
  let s := MeanShift_Classical_scan pc seed UniformKernel radius height
    centroid.x centroid.y centroid.z
  ⟨s.sumx / s.sump, s.sumy / s.sump, s.sumz / s.sump⟩

/-- Continue-condition of MeanShift_Classical.cpp, lines 134-139 (without the
counter conjunct, which `doWhile` holds): the loop body re-executes while all
three axis deltas are below 0.01. -/
def classicalContinue (old new : P3) : Prop :=
  |new.x - old.x| < 0.01 ∧ |new.y - old.y| < 0.01 ∧ |new.z - old.z| < 0.01

/-- Per-seed do-while loop of MeanShift_Classical.cpp from an arbitrary
centroid and counter state. -/
noncomputable def MeanShift_Classical_loop (pc : List P3)
    (CD2TH_fac CH2TH_fac : ℝ) (UniformKernel : Bool) (MaxIter : ℕ)
    (seed centroid : P3) (iter : ℕ) : P3 × ℕ :=
  doWhile (MeanShift_Classical_body pc CD2TH_fac CH2TH_fac UniformKernel seed)
    classicalContinue MaxIter centroid iter

/-- Full per-seed computation of MeanShift_Classical.cpp, lines 43-144:
centroid initialized to the seed, counter to 0. -/
noncomputable def MeanShift_Classical_seedRun (pc : List P3)
    (CD2TH_fac CH2TH_fac : ℝ) (UniformKernel : Bool) (MaxIter : ℕ) (seed : P3) :
    P3 × ℕ :=
  MeanShift_Classical_loop pc CD2TH_fac CH2TH_fac UniformKernel MaxIter seed seed 0

/-- MeanShift_Classical from MeanShift_Classical.cpp, lines 30-157: one result
row per input row, pairing the original coordinates with the computed mode. -/
noncomputable def MeanShift_Classical (pc : List P3)
    (CD2TH_fac CH2TH_fac : ℝ) (MaxIter : ℕ) (UniformKernel : Bool) :
    List ResultRow :=
  pc.map fun p =>
    let m := (MeanShift_Classical_seedRun pc CD2TH_fac CH2TH_fac UniformKernel
      MaxIter p).1
    ⟨p.x, p.y, p.z, m.x, m.y, m.z⟩

/-- Inner j-loop of meanShiftClassic.cpp, lines 91-117: reads row j. -/
noncomputable def meanShiftClassic_scan (pc : List P3)
    (radius height centroidX centroidY centroidZ : ℝ) : Sums :=
  pc.foldl (fun s q =>
    if InCylinder q.x q.y q.z radius height centroidX centroidY centroidZ then
      let verticalWeight := EpanechnikovFunction height centroidZ q.z
      let horizontalWeight := GaussFunction radius centroidX centroidY q.x q.y
      let weight := verticalWeight * horizontalWeight
      ⟨s.sumx + weight * q.x, s.sumy + weight * q.y, s.sumz + weight * q.z,
        s.sump + weight⟩
    else s) ⟨0, 0, 0, 0⟩

/-- One iteration body of meanShiftClassic.cpp, lines 73-121. -/
noncomputable def meanShiftClassic_body (pc : List P3)
    (crownDiameter2TreeHeight crownHeight2TreeHeight : ℝ) (centroid : P3) : P3 :=
  let radius := crownDiameter2TreeHeight * centroid.z * 0.5
  let height := crownHeight2TreeHeight * centroid.z
  let s := meanShiftClassic_scan pc radius height centroid.x centroid.y centroid.z
  ⟨s.sumx / s.sump, s.sumy / s.sump, s.sumz / s.sump⟩

/-- Continue-condition of meanShiftClassic.cpp, lines 126-133 and of
meanShiftClassicImproved.cpp, lines 119-126 (without the counter conjunct):
the loop body re-executes while the Euclidean displacement exceeds 0.01. -/
def euclideanContinue (old new : P3) : Prop :=
  Real.sqrt ((new.x - old.x) ^ 2 + (new.y - old.y) ^ 2 + (new.z - old.z) ^ 2) > 0.01

/-- Per-seed do-while loop of meanShiftClassic.cpp from an arbitrary state. -/
noncomputable def meanShiftClassic_loop (pc : List P3)
    (crownDiameter2TreeHeight crownHeight2TreeHeight : ℝ)
    (maxNumCentroidsPerMode : ℕ) (centroid : P3) (iter : ℕ) : P3 × ℕ :=
  doWhile (meanShiftClassic_body pc crownDiameter2TreeHeight crownHeight2TreeHeight)
    euclideanContinue maxNumCentroidsPerMode centroid iter

/-- Full per-seed computation of meanShiftClassic.cpp, lines 44-139. -/
noncomputable def meanShiftClassic_seedRun (pc : List P3)
    (crownDiameter2TreeHeight crownHeight2TreeHeight : ℝ)
    (maxNumCentroidsPerMode : ℕ) (seed : P3) : P3 × ℕ :=
  meanShiftClassic_loop pc crownDiameter2TreeHeight crownHeight2TreeHeight
    maxNumCentroidsPerMode seed 0

/-- meanShiftClassic from meanShiftClassic.cpp, lines 30-151. -/
noncomputable def meanShiftClassic (pc : List P3)
    (crownDiameter2TreeHeight crownHeight2TreeHeight : ℝ)
    (maxNumCentroidsPerMode : ℕ) : List ResultRow :=
  pc.map fun p =>
    let m := (meanShiftClassic_seedRun pc crownDiameter2TreeHeight
      crownHeight2TreeHeight maxNumCentroidsPerMode p).1
    ⟨p.x, p.y, p.z, m.x, m.y, m.z⟩

/-- Inner j-loop of meanShiftClassicImproved.cpp, lines 81-110: membership and
weights are taken against the shifted cylinder middle. -/
noncomputable def meanShiftClassicImproved_scan (pc : List P3)
    (cylinderRadius cylinderHeight centroidX centroidY cylinderMiddleZ : ℝ) : Sums :=
  pc.foldl (fun s q =>
    if intersectsCylinder q.x q.y q.z cylinderRadius cylinderHeight
        centroidX centroidY cylinderMiddleZ then
      let verticalweight := calculateVerticalWeight q.z cylinderMiddleZ cylinderHeight
      let horizontalweight := calculateHorizontalWeight q.x q.y cylinderRadius
        centroidX centroidY
      let weight := verticalweight * horizontalweight
      ⟨s.sumx + weight * q.x, s.sumy + weight * q.y, s.sumz + weight * q.z,
        s.sump + weight⟩
    else s) ⟨0, 0, 0, 0⟩

/-- One iteration body of meanShiftClassicImproved.cpp, lines 60-114: the
cylinder height is rescaled by 0.75 and its middle shifted up by one sixth of
the rescaled height. -/
noncomputable def meanShiftClassicImproved_body (pc : List P3)
    (crownDiameter2TreeHeight crownHeight2TreeHeight : ℝ) (centroid : P3) : P3 :=
  let cylinderRadius := crownDiameter2TreeHeight * centroid.z * 0.5
  let cylinderHeight := crownHeight2TreeHeight * centroid.z * 0.75
  let cylinderMiddleZ := centroid.z + cylinderHeight * (1 / 6)
  let s := meanShiftClassicImproved_scan pc cylinderRadius cylinderHeight
    centroid.x centroid.y cylinderMiddleZ
  ⟨s.sumx / s.sump, s.sumy / s.sump, s.sumz / s.sump⟩

/-- Per-seed do-while loop of meanShiftClassicImproved.cpp from an arbitrary
state. -/
noncomputable def meanShiftClassicImproved_loop (pc : List P3)
    (crownDiameter2TreeHeight crownHeight2TreeHeight : ℝ)
    (maxNumCentroidsPerMode : ℕ) (centroid : P3) (iter : ℕ) : P3 × ℕ :=
  doWhile (meanShiftClassicImproved_body pc crownDiameter2TreeHeight
    crownHeight2TreeHeight) euclideanContinue maxNumCentroidsPerMode centroid iter

/-- Full per-seed computation of meanShiftClassicImproved.cpp, lines 44-132. -/
noncomputable def meanShiftClassicImproved_seedRun (pc : List P3)
    (crownDiameter2TreeHeight crownHeight2TreeHeight : ℝ)
    (maxNumCentroidsPerMode : ℕ) (seed : P3) : P3 × ℕ :=
  meanShiftClassicImproved_loop pc crownDiameter2TreeHeight crownHeight2TreeHeight
    maxNumCentroidsPerMode seed 0

/-- meanShiftClassicImproved from meanShiftClassicImproved.cpp, lines 30-144. -/
noncomputable def meanShiftClassicImproved (pc : List P3)
    (crownDiameter2TreeHeight crownHeight2TreeHeight : ℝ)
    (maxNumCentroidsPerMode : ℕ) : List ResultRow :=
  pc.map fun p =>
    let m := (meanShiftClassicImproved_seedRun pc crownDiameter2TreeHeight
      crownHeight2TreeHeight maxNumCentroidsPerMode p).1
    ⟨p.x, p.y, p.z, m.x, m.y, m.z⟩

/-- The inner-scan accumulation as claim C1 and spec §4.4 step 3 describe it,
in uniform-kernel mode: every candidate point of the cloud that lies inside
the current cylinder contributes its own coordinates with weight 1. This
definition follows the claim's words, not the source, and exists only to be
compared against `MeanShift_Classical_scan`. -/
noncomputable def scanPerClaimUniform (pc : List P3)
    (radius height cX cY cZ : ℝ) : Sums :=
  pc.foldl (fun s q =>
    if InCylinder q.x q.y q.z radius height cX cY cZ then
      ⟨s.sumx + q.x, s.sumy + q.y, s.sumz + q.z, s.sump + 1⟩
    else s) ⟨0, 0, 0, 0⟩

/-! ## Generic lemmas about the shared do-while loop -/

/-- Main behavioral facts of `doWhile`, proved together by fuel induction:
the counter strictly exceeds its start, stays within the budget whenever the
start was below it, and the returned centroid is the body iterated exactly as
many times as the counter advanced. -/
theorem doWhile_main (body : P3 → P3) (cont : P3 → P3 → Prop) :
    ∀ (fuel maxIter : ℕ) (c : P3) (k : ℕ), maxIter - k ≤ fuel →
      k + 1 ≤ (doWhile body cont maxIter c k).2
      ∧ (k < maxIter → (doWhile body cont maxIter c k).2 ≤ maxIter)
      ∧ (doWhile body cont maxIter c k).1
          = body^[(doWhile body cont maxIter c k).2 - k] c := by
  intro fuel
  induction fuel with
  | zero =>
    intro maxIter c k hf
    rw [doWhile]
    split
    · rename_i h
      exact absurd h.2 (by omega)
    · refine ⟨le_refl _, fun hk => by omega, ?_⟩
      have h1 : k + 1 - k = 1 := by omega
      rw [h1, Function.iterate_one]
  | succ n ih =>
    intro maxIter c k hf
    rw [doWhile]
    split
    · rename_i h
      have hrec := ih maxIter (body c) (k + 1) (by omega)
      refine ⟨le_trans (by omega) hrec.1, fun _ => hrec.2.1 (by omega), ?_⟩
      rw [hrec.2.2]
      have h2 : (doWhile body cont maxIter (body c) (k + 1)).2 - k
          = ((doWhile body cont maxIter (body c) (k + 1)).2 - (k + 1)) + 1 := by
        have := hrec.1
        omega
      rw [h2, Function.iterate_succ_apply]
    · refine ⟨le_refl _, fun hk => by omega, ?_⟩
      have h1 : k + 1 - k = 1 := by omega
      rw [h1, Function.iterate_one]

/-- The counter always advances by at least one. -/
theorem doWhile_count_ge (body : P3 → P3) (cont : P3 → P3 → Prop)
    (maxIter : ℕ) (c : P3) (k : ℕ) :
    k + 1 ≤ (doWhile body cont maxIter c k).2 :=
  (doWhile_main body cont (maxIter - k) maxIter c k le_rfl).1

/-- The counter never exceeds the budget when started below it. -/
theorem doWhile_count_le (body : P3 → P3) (cont : P3 → P3 → Prop)
    (maxIter : ℕ) (c : P3) (k : ℕ) (h : k < maxIter) :
    (doWhile body cont maxIter c k).2 ≤ maxIter :=
  (doWhile_main body cont (maxIter - k) maxIter c k le_rfl).2.1 h

/-- The returned centroid is the loop body iterated exactly as many times as
the counter advanced, whether or not the continue-condition ever failed. -/
theorem doWhile_mode_iterate (body : P3 → P3) (cont : P3 → P3 → Prop)
    (maxIter : ℕ) (c : P3) (k : ℕ) :
    (doWhile body cont maxIter c k).1
      = body^[(doWhile body cont maxIter c k).2 - k] c :=
  (doWhile_main body cont (maxIter - k) maxIter c k le_rfl).2.2

/-- The loop re-executes after its first body execution exactly when the
continue-condition holds for (old, new) and the incremented counter is still
below the budget. -/
theorem doWhile_continue_iff (body : P3 → P3) (cont : P3 → P3 → Prop)
    (maxIter : ℕ) (c : P3) (k : ℕ) :
    k + 1 < (doWhile body cont maxIter c k).2
      ↔ (cont c (body c) ∧ k + 1 < maxIter) := by
  rw [doWhile]
  split
  · rename_i h
    exact iff_of_true
      (lt_of_lt_of_le (by omega) (doWhile_count_ge body cont maxIter (body c) (k + 1))) h
  · rename_i h
    exact iff_of_false (by simp) h

/-- A fixed point of the body is never moved by the loop. -/
theorem doWhile_fixpoint (body : P3 → P3) (cont : P3 → P3 → Prop)
    (maxIter : ℕ) (c : P3) (hfix : body c = c) (k : ℕ) :
    (doWhile body cont maxIter c k).1 = c := by
  rw [doWhile_mode_iterate]
  exact Function.iterate_fixed hfix _

/-! ## Claim theorems -/

/-- C6: for all real inputs with radius ≥ 0 and height ≥ 0, both `InCylinder`
and `intersectsCylinder` return true iff the squared horizontal distance of
the point to the axis is at most radius² and its z lies in
[centerZ − height/2, centerZ + height/2], with the radial rim and the
top/bottom boundaries inclusive. -/
theorem c6_membership_iff (x y z radius height centerX centerY centerZ : ℝ)
    (hr : 0 ≤ radius) (hh : 0 ≤ height) :
    (InCylinder x y z radius height centerX centerY centerZ ↔
      ((x - centerX) ^ 2 + (y - centerY) ^ 2 ≤ radius ^ 2
        ∧ centerZ - height / 2 ≤ z ∧ z ≤ centerZ + height / 2))
    ∧ (intersectsCylinder x y z radius height centerX centerY centerZ ↔
      ((x - centerX) ^ 2 + (y - centerY) ^ 2 ≤ radius ^ 2
        ∧ centerZ - height / 2 ≤ z ∧ z ≤ centerZ + height / 2)) := by
  constructor
  · simp only [InCylinder]
    constructor
    · rintro ⟨h1, h2, h3⟩
      exact ⟨h1, by linarith, by linarith⟩
    · rintro ⟨h1, h2, h3⟩
      exact ⟨h1, by linarith, by linarith⟩
  · simp only [intersectsCylinder]
    constructor
    · rintro ⟨h1, h2, h3⟩
      exact ⟨h1, by linarith, by linarith⟩
    · rintro ⟨h1, h2, h3⟩
      exact ⟨h1, by linarith, by linarith⟩

/-- Witness for C6: a point on the rim of a concrete cylinder, with both
membership tests evaluated through the claim theorem. -/
theorem c6_membership_iff_witness :
    InCylinder 2 0 1 2 4 0 0 0 ↔ intersectsCylinder 2 0 1 2 4 0 0 0 := by
  have h := c6_membership_iff 2 0 1 2 4 0 0 0 (by norm_num) (by norm_num)
  exact h.1.trans h.2.symm

/-- C8: GaussFunction and calculateHorizontalWeight both compute
exp(−5·(hypot(Δx, Δy)/radius)²); for radius > 0 the value lies in (0, 1] and
equals 1 exactly when the point coincides with the cylinder axis. -/
theorem c8_gauss_weight (radius centerX centerY pointX pointY : ℝ)
    (hr : 0 < radius) :
    GaussFunction radius centerX centerY pointX pointY
        = Real.exp (-5 * (hypot (pointX - centerX) (pointY - centerY) / radius) ^ 2)
    ∧ calculateHorizontalWeight pointX pointY radius centerX centerY
        = Real.exp (-5 * (hypot (pointX - centerX) (pointY - centerY) / radius) ^ 2)
    ∧ 0 < GaussFunction radius centerX centerY pointX pointY
    ∧ GaussFunction radius centerX centerY pointX pointY ≤ 1
    ∧ (GaussFunction radius centerX centerY pointX pointY = 1
        ↔ pointX = centerX ∧ pointY = centerY) := by
  have hyp_comm : hypot (centerX - pointX) (centerY - pointY)
      = hypot (pointX - centerX) (pointY - centerY) := by
    unfold hypot
    ring_nf
  refine ⟨rfl, ?_, Real.exp_pos _, ?_, ?_⟩
  · unfold calculateHorizontalWeight gauss
    rw [hyp_comm]
  · unfold GaussFunction
    rw [Real.exp_le_one_iff]
    nlinarith [sq_nonneg (hypot (pointX - centerX) (pointY - centerY) / radius)]
  · unfold GaussFunction
    rw [Real.exp_eq_one_iff]
    have h5 : (-5 : ℝ) ≠ 0 := by norm_num
    rw [mul_eq_zero]
    rw [pow_eq_zero_iff (two_ne_zero)]
    rw [div_eq_zero_iff]
    unfold hypot
    rw [Real.sqrt_eq_zero (by positivity)]
    constructor
    · rintro (h | h | h)
      · exact absurd h h5
      · constructor
        · have := sq_nonneg (pointX - centerX)
          have := sq_nonneg (pointY - centerY)
          have hx2 : (pointX - centerX) ^ 2 = 0 := by linarith
          have := pow_eq_zero_iff (n := 2) two_ne_zero |>.mp hx2
          linarith [sub_eq_zero.mp this]
        · have := sq_nonneg (pointX - centerX)
          have := sq_nonneg (pointY - centerY)
          have hy2 : (pointY - centerY) ^ 2 = 0 := by linarith
          have := pow_eq_zero_iff (n := 2) two_ne_zero |>.mp hy2
          linarith [sub_eq_zero.mp this]
      · exact absurd h (ne_of_gt hr)
    · rintro ⟨hx, hy⟩
      right; left
      rw [hx, hy]
      ring

/-- Witness for C8: the weight on the cylinder axis is exactly 1. -/
theorem c8_gauss_weight_witness : GaussFunction 1 0 0 0 0 = 1 :=
  (c8_gauss_weight 1 0 0 0 0 (by norm_num)).2.2.2.2.mpr ⟨rfl, rfl⟩

/-- Inside the band [centerZ − height/4, centerZ + height/2] the masked
Epanechnikov value coincides with the parabola centered at
centerZ + height/8 and normalized by 3·height/8. -/
theorem Epanechnikov_inside (height centerZ pointZ : ℝ) (hh : 0 < height)
    (hb : centerZ - height / 4 ≤ pointZ) (ht : pointZ ≤ centerZ + height / 2) :
    EpanechnikovFunction height centerZ pointZ
      = 1 - ((pointZ - (centerZ + height / 8)) / (3 * height / 8)) ^ 2 := by
  have hD : 0 < height * 3 / 8 := by linarith
  have hne : height ≠ 0 := ne_of_gt hh
  unfold EpanechnikovFunction VerticalMask VerticalDistance
  rw [if_pos ⟨hb, ht⟩, one_mul]
  have habs1 : |(centerZ - height / 4 - pointZ) / (height * 3 / 8)|
      = (pointZ - (centerZ - height / 4)) / (height * 3 / 8) := by
    rw [abs_div, abs_of_pos hD, abs_of_nonpos (by linarith)]
    ring
  have habs2 : |(centerZ + height / 2 - pointZ) / (height * 3 / 8)|
      = (centerZ + height / 2 - pointZ) / (height * 3 / 8) := by
    rw [abs_div, abs_of_pos hD, abs_of_nonneg (by linarith)]
  rw [habs1, habs2, min_div_div_right (le_of_lt hD)]
  rcases le_total pointZ (centerZ + height / 8) with hm | hm
  · rw [min_eq_left (by linarith)]
    field_simp
    ring
  · rw [min_eq_right (by linarith)]
    field_simp
    ring

/-- C7: for every height > 0, EpanechnikovFunction vanishes outside the band
[centerZ − height/4, centerZ + height/2] (the upper three quarters of the
cylinder); inside the band it equals
1 − ((pointZ − (centerZ + height/8)) / (3·height/8))², lies in [0, 1], equals
0 at the band's two boundaries, and attains its maximum 1 exactly at the
band's midpoint centerZ + height/8. -/
theorem c7_epanechnikov (height centerZ pointZ : ℝ) (hh : 0 < height) :
    ((pointZ < centerZ - height / 4 ∨ centerZ + height / 2 < pointZ) →
        EpanechnikovFunction height centerZ pointZ = 0)
    ∧ (centerZ - height / 4 ≤ pointZ → pointZ ≤ centerZ + height / 2 →
        (EpanechnikovFunction height centerZ pointZ
            = 1 - ((pointZ - (centerZ + height / 8)) / (3 * height / 8)) ^ 2
          ∧ 0 ≤ EpanechnikovFunction height centerZ pointZ
          ∧ EpanechnikovFunction height centerZ pointZ ≤ 1
          ∧ (EpanechnikovFunction height centerZ pointZ = 1
              ↔ pointZ = centerZ + height / 8)))
    ∧ EpanechnikovFunction height centerZ (centerZ - height / 4) = 0
    ∧ EpanechnikovFunction height centerZ (centerZ + height / 2) = 0
    ∧ EpanechnikovFunction height centerZ (centerZ + height / 8) = 1 := by
  have hD : (0 : ℝ) < 3 * height / 8 := by linarith
  have hDne : (3 : ℝ) * height / 8 ≠ 0 := ne_of_gt hD
  refine ⟨?_, ?_, ?_, ?_, ?_⟩
  · intro hout
    unfold EpanechnikovFunction VerticalMask
    rw [if_neg, zero_mul]
    rcases hout with h | h
    · intro hc
      have := hc.1
      linarith
    · intro hc
      have := hc.2
      linarith
  · intro hb ht
    have hform := Epanechnikov_inside height centerZ pointZ hh hb ht
    have hsq : ((pointZ - (centerZ + height / 8)) / (3 * height / 8)) ^ 2
        = (pointZ - (centerZ + height / 8)) ^ 2 / (3 * height / 8) ^ 2 :=
      div_pow _ _ 2
    have hnum : (pointZ - (centerZ + height / 8)) ^ 2 ≤ (3 * height / 8) ^ 2 := by
      nlinarith
    have hle1 : ((pointZ - (centerZ + height / 8)) / (3 * height / 8)) ^ 2 ≤ 1 := by
      rw [hsq]
      exact div_le_one_of_le₀ hnum (by positivity)
    refine ⟨hform, ?_, ?_, ?_⟩
    · rw [hform]
      linarith
    · rw [hform]
      nlinarith [sq_nonneg ((pointZ - (centerZ + height / 8)) / (3 * height / 8))]
    · rw [hform]
      constructor
      · intro h1
        have h0 : ((pointZ - (centerZ + height / 8)) / (3 * height / 8)) ^ 2 = 0 := by
          linarith
        have h0' := pow_eq_zero_iff two_ne_zero |>.mp h0
        rw [div_eq_zero_iff] at h0'
        rcases h0' with h0' | h0'
        · linarith [sub_eq_zero.mp h0']
        · exact absurd h0' hDne
      · intro h1
        rw [h1, sub_self, zero_div]
        norm_num
  · rw [Epanechnikov_inside height centerZ _ hh (le_refl _) (by linarith)]
    have : centerZ - height / 4 - (centerZ + height / 8) = -(3 * height / 8) := by
      ring
    rw [this, neg_div, div_self hDne]
    norm_num
  · rw [Epanechnikov_inside height centerZ _ hh (by linarith) (le_refl _)]
    have : centerZ + height / 2 - (centerZ + height / 8) = 3 * height / 8 := by
      ring
    rw [this, div_self hDne]
    norm_num
  · rw [Epanechnikov_inside height centerZ _ hh (by linarith) (by linarith)]
    rw [sub_self, zero_div]
    norm_num

/-- Witness for C7 at height 8, centerZ 0: the value at the band midpoint 1
is exactly 1. -/
theorem c7_epanechnikov_witness : EpanechnikovFunction 8 0 (0 + 8 / 8) = 1 :=
  (c7_epanechnikov 8 0 (0 + 8 / 8) (by norm_num)).2.2.2.2

/-- C2: in MeanShift_Classical the per-axis stopping rule uses ε = 0.01 and
the do-while loop re-executes its body exactly when all three axis deltas of
the centroid update are below 0.01 AND the iteration counter is below
MaxIter — the loop continues while already converged, the inverse of
continuing while not yet converged. -/
theorem c2_classical_inverted_guard (pc : List P3) (CD2TH_fac CH2TH_fac : ℝ)
    (UniformKernel : Bool) (MaxIter : ℕ) (seed centroid : P3) (iter : ℕ) :
    iter + 1
        < (MeanShift_Classical_loop pc CD2TH_fac CH2TH_fac UniformKernel MaxIter
            seed centroid iter).2
      ↔ (|(MeanShift_Classical_body pc CD2TH_fac CH2TH_fac UniformKernel seed
              centroid).x - centroid.x| < 0.01
          ∧ |(MeanShift_Classical_body pc CD2TH_fac CH2TH_fac UniformKernel seed
              centroid).y - centroid.y| < 0.01
          ∧ |(MeanShift_Classical_body pc CD2TH_fac CH2TH_fac UniformKernel seed
              centroid).z - centroid.z| < 0.01
          ∧ iter + 1 < MaxIter) := by
  unfold MeanShift_Classical_loop
  rw [doWhile_continue_iff]
  unfold classicalContinue
  tauto

/-- C4: in meanShiftClassic and meanShiftClassicImproved the per-seed loop
re-executes after a centroid update exactly when the Euclidean displacement
sqrt(Δx² + Δy² + Δz²) exceeds 0.01 and the counter is below the maximum;
equivalently, the seed is declared converged exactly when the displacement is
at most 0.01. -/
theorem c4_euclidean_guard (pc : List P3)
    (crownDiameter2TreeHeight crownHeight2TreeHeight : ℝ)
    (maxNumCentroidsPerMode : ℕ) (centroid : P3) (iter : ℕ) :
    (iter + 1
        < (meanShiftClassic_loop pc crownDiameter2TreeHeight crownHeight2TreeHeight
            maxNumCentroidsPerMode centroid iter).2
      ↔ (Real.sqrt
            (((meanShiftClassic_body pc crownDiameter2TreeHeight
                crownHeight2TreeHeight centroid).x - centroid.x) ^ 2
              + ((meanShiftClassic_body pc crownDiameter2TreeHeight
                  crownHeight2TreeHeight centroid).y - centroid.y) ^ 2
              + ((meanShiftClassic_body pc crownDiameter2TreeHeight
                  crownHeight2TreeHeight centroid).z - centroid.z) ^ 2) > 0.01
          ∧ iter + 1 < maxNumCentroidsPerMode))
    ∧ (iter + 1
        < (meanShiftClassicImproved_loop pc crownDiameter2TreeHeight
            crownHeight2TreeHeight maxNumCentroidsPerMode centroid iter).2
      ↔ (Real.sqrt
            (((meanShiftClassicImproved_body pc crownDiameter2TreeHeight
                crownHeight2TreeHeight centroid).x - centroid.x) ^ 2
              + ((meanShiftClassicImproved_body pc crownDiameter2TreeHeight
                  crownHeight2TreeHeight centroid).y - centroid.y) ^ 2
              + ((meanShiftClassicImproved_body pc crownDiameter2TreeHeight
                  crownHeight2TreeHeight centroid).z - centroid.z) ^ 2) > 0.01
          ∧ iter + 1 < maxNumCentroidsPerMode)) := by
  constructor
  · unfold meanShiftClassic_loop
    rw [doWhile_continue_iff]
    unfold euclideanContinue
    tauto
  · unfold meanShiftClassicImproved_loop
    rw [doWhile_continue_iff]
    unfold euclideanContinue
    tauto

/-- C9: for maxIterations ≥ 1 each driver's per-seed loop runs at least one
and at most maxIterations iterations (the counter advances by exactly one per
body execution), and the centroid computed in the final iteration — the body
iterated exactly counter-many times from the seed — is returned as the mode
unconditionally, whether or not the stopping rule ever fired. -/
theorem c9_budget_termination (pc : List P3) (cd ch : ℝ) (uniform : Bool)
    (maxIter : ℕ) (seed : P3) (hmax : 1 ≤ maxIter) :
    (1 ≤ (MeanShift_Classical_seedRun pc cd ch uniform maxIter seed).2
      ∧ (MeanShift_Classical_seedRun pc cd ch uniform maxIter seed).2 ≤ maxIter
      ∧ (MeanShift_Classical_seedRun pc cd ch uniform maxIter seed).1
          = (MeanShift_Classical_body pc cd ch uniform
              seed)^[(MeanShift_Classical_seedRun pc cd ch uniform maxIter seed).2]
              seed)
    ∧ (1 ≤ (meanShiftClassic_seedRun pc cd ch maxIter seed).2
      ∧ (meanShiftClassic_seedRun pc cd ch maxIter seed).2 ≤ maxIter
      ∧ (meanShiftClassic_seedRun pc cd ch maxIter seed).1
          = (meanShiftClassic_body pc cd
              ch)^[(meanShiftClassic_seedRun pc cd ch maxIter seed).2] seed)
    ∧ (1 ≤ (meanShiftClassicImproved_seedRun pc cd ch maxIter seed).2
      ∧ (meanShiftClassicImproved_seedRun pc cd ch maxIter seed).2 ≤ maxIter
      ∧ (meanShiftClassicImproved_seedRun pc cd ch maxIter seed).1
          = (meanShiftClassicImproved_body pc cd
              ch)^[(meanShiftClassicImproved_seedRun pc cd ch maxIter seed).2]
              seed) := by
  unfold MeanShift_Classical_seedRun MeanShift_Classical_loop
    meanShiftClassic_seedRun meanShiftClassic_loop
    meanShiftClassicImproved_seedRun meanShiftClassicImproved_loop
  refine ⟨⟨?_, ?_, ?_⟩, ⟨?_, ?_, ?_⟩, ⟨?_, ?_, ?_⟩⟩
  · exact doWhile_count_ge _ _ _ _ _
  · exact doWhile_count_le _ _ _ _ _ (by omega)
  · simpa using doWhile_mode_iterate
      (MeanShift_Classical_body pc cd ch uniform seed) classicalContinue maxIter seed 0
  · exact doWhile_count_ge _ _ _ _ _
  · exact doWhile_count_le _ _ _ _ _ (by omega)
  · simpa using doWhile_mode_iterate
      (meanShiftClassic_body pc cd ch) euclideanContinue maxIter seed 0
  · exact doWhile_count_ge _ _ _ _ _
  · exact doWhile_count_le _ _ _ _ _ (by omega)
  · simpa using doWhile_mode_iterate
      (meanShiftClassicImproved_body pc cd ch) euclideanContinue maxIter seed 0

/-- Witness for C9 at a concrete parameterization with budget 1. -/
theorem c9_budget_termination_witness :
    (1 ≤ (MeanShift_Classical_seedRun [] 0 0 false 1 ⟨0, 0, 0⟩).2
      ∧ (MeanShift_Classical_seedRun [] 0 0 false 1 ⟨0, 0, 0⟩).2 ≤ 1
      ∧ (MeanShift_Classical_seedRun [] 0 0 false 1 ⟨0, 0, 0⟩).1
          = (MeanShift_Classical_body [] 0 0 false
              ⟨0, 0, 0⟩)^[(MeanShift_Classical_seedRun [] 0 0 false 1 ⟨0, 0, 0⟩).2]
              ⟨0, 0, 0⟩)
    ∧ (1 ≤ (meanShiftClassic_seedRun [] 0 0 1 ⟨0, 0, 0⟩).2
      ∧ (meanShiftClassic_seedRun [] 0 0 1 ⟨0, 0, 0⟩).2 ≤ 1
      ∧ (meanShiftClassic_seedRun [] 0 0 1 ⟨0, 0, 0⟩).1
          = (meanShiftClassic_body [] 0
              0)^[(meanShiftClassic_seedRun [] 0 0 1 ⟨0, 0, 0⟩).2] ⟨0, 0, 0⟩)
    ∧ (1 ≤ (meanShiftClassicImproved_seedRun [] 0 0 1 ⟨0, 0, 0⟩).2
      ∧ (meanShiftClassicImproved_seedRun [] 0 0 1 ⟨0, 0, 0⟩).2 ≤ 1
      ∧ (meanShiftClassicImproved_seedRun [] 0 0 1 ⟨0, 0, 0⟩).1
          = (meanShiftClassicImproved_body [] 0
              0)^[(meanShiftClassicImproved_seedRun [] 0 0 1 ⟨0, 0, 0⟩).2]
              ⟨0, 0, 0⟩) :=
  c9_budget_termination [] 0 0 false 1 ⟨0, 0, 0⟩ (le_refl 1)

/-- C10: each driver returns a table with exactly one row per input point, in
input order; row i repeats point i's original coordinates unchanged and
carries as mode the result of the per-seed computation started from point i. -/
theorem c10_result_table (pc : List P3) (cd ch : ℝ) (uniform : Bool)
    (maxIter : ℕ) :
    ((MeanShift_Classical pc cd ch maxIter uniform).length = pc.length
      ∧ ∀ i (hi : i < pc.length),
          (MeanShift_Classical pc cd ch maxIter uniform)[i]?
            = some ⟨(pc.get ⟨i, hi⟩).x, (pc.get ⟨i, hi⟩).y, (pc.get ⟨i, hi⟩).z,
                (MeanShift_Classical_seedRun pc cd ch uniform maxIter
                  (pc.get ⟨i, hi⟩)).1.x,
                (MeanShift_Classical_seedRun pc cd ch uniform maxIter
                  (pc.get ⟨i, hi⟩)).1.y,
                (MeanShift_Classical_seedRun pc cd ch uniform maxIter
                  (pc.get ⟨i, hi⟩)).1.z⟩)
    ∧ ((meanShiftClassic pc cd ch maxIter).length = pc.length
      ∧ ∀ i (hi : i < pc.length),
          (meanShiftClassic pc cd ch maxIter)[i]?
            = some ⟨(pc.get ⟨i, hi⟩).x, (pc.get ⟨i, hi⟩).y, (pc.get ⟨i, hi⟩).z,
                (meanShiftClassic_seedRun pc cd ch maxIter (pc.get ⟨i, hi⟩)).1.x,
                (meanShiftClassic_seedRun pc cd ch maxIter (pc.get ⟨i, hi⟩)).1.y,
                (meanShiftClassic_seedRun pc cd ch maxIter (pc.get ⟨i, hi⟩)).1.z⟩)
    ∧ ((meanShiftClassicImproved pc cd ch maxIter).length = pc.length
      ∧ ∀ i (hi : i < pc.length),
          (meanShiftClassicImproved pc cd ch maxIter)[i]?
            = some ⟨(pc.get ⟨i, hi⟩).x, (pc.get ⟨i, hi⟩).y, (pc.get ⟨i, hi⟩).z,
                (meanShiftClassicImproved_seedRun pc cd ch maxIter
                  (pc.get ⟨i, hi⟩)).1.x,
                (meanShiftClassicImproved_seedRun pc cd ch maxIter
                  (pc.get ⟨i, hi⟩)).1.y,
                (meanShiftClassicImproved_seedRun pc cd ch maxIter
                  (pc.get ⟨i, hi⟩)).1.z⟩) := by
  refine ⟨⟨?_, ?_⟩, ⟨?_, ?_⟩, ⟨?_, ?_⟩⟩
  · simp [MeanShift_Classical]
  · intro i hi
    unfold MeanShift_Classical
    rw [List.getElem?_map, List.getElem?_eq_getElem hi]
    simp [List.get_eq_getElem]
  · simp [meanShiftClassic]
  · intro i hi
    unfold meanShiftClassic
    rw [List.getElem?_map, List.getElem?_eq_getElem hi]
    simp [List.get_eq_getElem]
  · simp [meanShiftClassicImproved]
  · intro i hi
    unfold meanShiftClassicImproved
    rw [List.getElem?_map, List.getElem?_eq_getElem hi]
    simp [List.get_eq_getElem]

/-- Witness for C10: row 0 of each driver's output on a one-point cloud. -/
theorem c10_result_table_witness :
    (MeanShift_Classical [⟨1, 2, 3⟩] 0 0 1 false)[0]?
        = some ⟨1, 2, 3,
            (MeanShift_Classical_seedRun [⟨1, 2, 3⟩] 0 0 false 1 ⟨1, 2, 3⟩).1.x,
            (MeanShift_Classical_seedRun [⟨1, 2, 3⟩] 0 0 false 1 ⟨1, 2, 3⟩).1.y,
            (MeanShift_Classical_seedRun [⟨1, 2, 3⟩] 0 0 false 1 ⟨1, 2, 3⟩).1.z⟩
    ∧ (meanShiftClassic [⟨1, 2, 3⟩] 0 0 1)[0]?
        = some ⟨1, 2, 3,
            (meanShiftClassic_seedRun [⟨1, 2, 3⟩] 0 0 1 ⟨1, 2, 3⟩).1.x,
            (meanShiftClassic_seedRun [⟨1, 2, 3⟩] 0 0 1 ⟨1, 2, 3⟩).1.y,
            (meanShiftClassic_seedRun [⟨1, 2, 3⟩] 0 0 1 ⟨1, 2, 3⟩).1.z⟩
    ∧ (meanShiftClassicImproved [⟨1, 2, 3⟩] 0 0 1)[0]?
        = some ⟨1, 2, 3,
            (meanShiftClassicImproved_seedRun [⟨1, 2, 3⟩] 0 0 1 ⟨1, 2, 3⟩).1.x,
            (meanShiftClassicImproved_seedRun [⟨1, 2, 3⟩] 0 0 1 ⟨1, 2, 3⟩).1.y,
            (meanShiftClassicImproved_seedRun [⟨1, 2, 3⟩] 0 0 1 ⟨1, 2, 3⟩).1.z⟩ := by
  have h := c10_result_table [⟨1, 2, 3⟩] 0 0 false 1
  refine ⟨?_, ?_, ?_⟩
  · simpa using h.1.2 0 (by norm_num)
  · simpa using h.2.1.2 0 (by norm_num)
  · simpa using h.2.2.2 0 (by norm_num)

/-- The Gauss weight of a point at the cylinder axis is 1. -/
theorem GaussFunction_self (radius x y : ℝ) : GaussFunction radius x y x y = 1 := by
  unfold GaussFunction hypot
  simp [Real.exp_zero]

/-- The masked Epanechnikov weight of the cylinder center against itself is
8/9 for positive height. -/
theorem EpanechnikovFunction_self (height z : ℝ) (hh : 0 < height) :
    EpanechnikovFunction height z z = 8 / 9 := by
  rw [Epanechnikov_inside height z z hh (by linarith) (by linarith)]
  have hne : height ≠ 0 := ne_of_gt hh
  field_simp
  ring

/-- Unrolling MeanShift_Classical's scan: because each of the pc.length turns
of the j-loop reads the seed's coordinates, the scan adds the same
contribution pc.length times whenever the seed passes the membership test
against the current cylinder. -/
theorem MeanShift_Classical_scan_const (seed : P3) (uniform : Bool)
    (radius height cX cY cZ : ℝ)
    (hin : InCylinder seed.x seed.y seed.z radius height cX cY cZ)
    (w : ℝ)
    (hw : w = if uniform then 1
        else EpanechnikovFunction height cZ seed.z
          * GaussFunction radius cX cY seed.x seed.y) :
    ∀ (l : List P3) (s : Sums),
      (l.foldl (fun s _row =>
        let jx := seed.x
        let jy := seed.y
        let jz := seed.z
        if InCylinder jx jy jz radius height cX cY cZ then
          if uniform then
            ⟨s.sumx + jx, s.sumy + jy, s.sumz + jz, s.sump + 1⟩
          else
            let verticalweight := EpanechnikovFunction height cZ jz
            let horizontalweight := GaussFunction radius cX cY jx jy
            let weight := verticalweight * horizontalweight
            ⟨s.sumx + weight * jx, s.sumy + weight * jy, s.sumz + weight * jz,
              s.sump + weight⟩
        else s) s : Sums)
      = ⟨s.sumx + l.length * (w * seed.x), s.sumy + l.length * (w * seed.y),
          s.sumz + l.length * (w * seed.z), s.sump + l.length * w⟩ := by
  intro l
  induction l with
  | nil =>
    intro s
    simp
  | cons q t ih =>
    intro s
    rw [List.foldl_cons, ih]
    dsimp only
    rw [if_pos hin]
    cases uniform with
    | false =>
      simp only [Bool.false_eq_true, if_false] at hw
      simp only [Bool.false_eq_true, if_false, List.length_cons, Sums.mk.injEq]
      rw [hw]
      push_cast
      refine ⟨by ring, by ring, by ring, by ring⟩
    | true =>
      simp only [if_true] at hw
      simp only [if_true, List.length_cons, Sums.mk.injEq]
      rw [hw]
      push_cast
      refine ⟨by ring, by ring, by ring, by ring⟩

/-- For a seed with positive z and positive shape ratios, the seed passes
MeanShift_Classical's membership test against its own cylinder, and the body
applied at the seed returns the seed with a strictly positive weight sum. -/
theorem MeanShift_Classical_body_self (pc : List P3) (cd ch : ℝ)
    (uniform : Bool) (seed : P3) (hpc : pc ≠ [])
    (hz : 0 < seed.z) (hcd : 0 < cd) (hch : 0 < ch) :
    0 < (MeanShift_Classical_scan pc seed uniform (cd * seed.z * 0.5)
          (ch * seed.z) seed.x seed.y seed.z).sump
    ∧ MeanShift_Classical_body pc cd ch uniform seed seed = seed := by
  have hh : 0 < ch * seed.z := by positivity
  have hin : InCylinder seed.x seed.y seed.z (cd * seed.z * 0.5) (ch * seed.z)
      seed.x seed.y seed.z := by
    refine ⟨?_, ?_, ?_⟩
    · have h0 : (seed.x - seed.x) ^ 2 + (seed.y - seed.y) ^ 2 = (0 : ℝ) := by ring
      rw [h0]
      positivity
    · simp only [ge_iff_le]
      linarith
    · linarith
  set w : ℝ := if uniform then 1
      else EpanechnikovFunction (ch * seed.z) seed.z seed.z
        * GaussFunction (cd * seed.z * 0.5) seed.x seed.y seed.x seed.y with hw
  have hwpos : 0 < w := by
    rw [hw]
    cases uniform with
    | false =>
      simp only [Bool.false_eq_true, if_false]
      rw [EpanechnikovFunction_self _ _ hh, GaussFunction_self]
      norm_num
    | true => simp
  have hn : 0 < (pc.length : ℝ) := by
    have := List.length_pos.mpr hpc
    exact_mod_cast this
  have hscan : MeanShift_Classical_scan pc seed uniform (cd * seed.z * 0.5)
      (ch * seed.z) seed.x seed.y seed.z
      = ⟨(pc.length : ℝ) * (w * seed.x), (pc.length : ℝ) * (w * seed.y),
          (pc.length : ℝ) * (w * seed.z), (pc.length : ℝ) * w⟩ := by
    have h := MeanShift_Classical_scan_const seed uniform (cd * seed.z * 0.5)
      (ch * seed.z) seed.x seed.y seed.z hin w hw pc ⟨0, 0, 0, 0⟩
    unfold MeanShift_Classical_scan
    rw [h]
    simp
  constructor
  · rw [hscan]
    exact mul_pos hn hwpos
  · unfold MeanShift_Classical_body
    dsimp only
    rw [hscan]
    have hcancel : ∀ a : ℝ,
        ((pc.length : ℝ) * (w * a)) / ((pc.length : ℝ) * w) = a := by
      intro a
      rw [mul_div_mul_left _ _ (ne_of_gt hn)]
      exact mul_div_cancel_left₀ a (ne_of_gt hwpos)
    rw [hcancel, hcancel, hcancel]

/-- C3: MeanShift_Classical's inner scan reads the seed's coordinates
pc(i,·) for every candidate index j, so for every input whose points all have
positive z and all positive shape ratios (either uniform-kernel setting),
each iteration's weight sum is strictly positive, the weighted average
returns exactly the seed, the centroid never moves, and the returned mode of
every point i equals point i's own original coordinates. -/
theorem c3_classical_mode_is_seed (pc : List P3) (cd ch : ℝ) (uniform : Bool)
    (maxIter : ℕ) (i : ℕ) (hi : i < pc.length)
    (hz : ∀ p ∈ pc, 0 < p.z) (hcd : 0 < cd) (hch : 0 < ch) :
    0 < (MeanShift_Classical_scan pc (pc.get ⟨i, hi⟩) uniform
          (cd * (pc.get ⟨i, hi⟩).z * 0.5) (ch * (pc.get ⟨i, hi⟩).z)
          (pc.get ⟨i, hi⟩).x (pc.get ⟨i, hi⟩).y (pc.get ⟨i, hi⟩).z).sump
    ∧ MeanShift_Classical_body pc cd ch uniform (pc.get ⟨i, hi⟩) (pc.get ⟨i, hi⟩)
        = pc.get ⟨i, hi⟩
    ∧ (MeanShift_Classical_seedRun pc cd ch uniform maxIter (pc.get ⟨i, hi⟩)).1
        = pc.get ⟨i, hi⟩
    ∧ (MeanShift_Classical pc cd ch maxIter uniform)[i]?
        = some ⟨(pc.get ⟨i, hi⟩).x, (pc.get ⟨i, hi⟩).y, (pc.get ⟨i, hi⟩).z,
            (pc.get ⟨i, hi⟩).x, (pc.get ⟨i, hi⟩).y, (pc.get ⟨i, hi⟩).z⟩ := by
  have hmem : pc.get ⟨i, hi⟩ ∈ pc := List.get_mem pc i hi
  have hzz : 0 < (pc.get ⟨i, hi⟩).z := hz _ hmem
  have hpc : pc ≠ [] := List.ne_nil_of_length_pos (by omega)
  obtain ⟨hsump, hbody⟩ :=
    MeanShift_Classical_body_self pc cd ch uniform _ hpc hzz hcd hch
  have hmode : (MeanShift_Classical_seedRun pc cd ch uniform maxIter
      (pc.get ⟨i, hi⟩)).1 = pc.get ⟨i, hi⟩ := by
    unfold MeanShift_Classical_seedRun MeanShift_Classical_loop
    exact doWhile_fixpoint _ _ _ _ hbody 0
  refine ⟨hsump, hbody, hmode, ?_⟩
  simp only [List.get_eq_getElem] at hmode ⊢
  unfold MeanShift_Classical
  rw [List.getElem?_map, List.getElem?_eq_getElem hi]
  dsimp only [Option.map_some']
  rw [hmode]

/-- Witness for C3: on the cloud [(0,0,10)] with shape ratios 1, the returned
row pairs the point with itself as mode. -/
theorem c3_classical_mode_is_seed_witness :
    (MeanShift_Classical [⟨0, 0, 10⟩] 1 1 5 false)[0]?
      = some ⟨0, 0, 10, 0, 0, 10⟩ := by
  have h := (c3_classical_mode_is_seed [⟨0, 0, 10⟩] 1 1 false 5 0 (by norm_num)
    (by
      intro p hp
      rw [List.mem_singleton] at hp
      rw [hp]
      norm_num)
    (by norm_num) (by norm_num)).2.2.2
  simpa using h

/-- C1 is refuted on MeanShift_Classical (code bug): on the two-point cloud
[(0,0,10), (0.2,0,10)] with ratios 0.6/0.5 and the uniform kernel, the first
iteration for seed (0,0,10) returns centroid (0,0,10), because lines 92-94
read pc(i,·) for every j; the candidate (0.2,0,10) lies inside the cylinder
(radius 3, height 5), so the accumulation described by the claim — candidate
j's own coordinates — would instead give mean x-coordinate 0.1 ≠ 0. -/
theorem c1_classical_scan_reads_seed :
    MeanShift_Classical_body [⟨0, 0, 10⟩, ⟨0.2, 0, 10⟩] 0.6 0.5 true
        ⟨0, 0, 10⟩ ⟨0, 0, 10⟩ = ⟨0, 0, 10⟩
    ∧ InCylinder 0.2 0 10 (0.6 * 10 * 0.5) (0.5 * 10) 0 0 10
    ∧ (scanPerClaimUniform [⟨0, 0, 10⟩, ⟨0.2, 0, 10⟩]
          (0.6 * 10 * 0.5) (0.5 * 10) 0 0 10).sumx
        / (scanPerClaimUniform [⟨0, 0, 10⟩, ⟨0.2, 0, 10⟩]
            (0.6 * 10 * 0.5) (0.5 * 10) 0 0 10).sump = 0.1
    ∧ (MeanShift_Classical_body [⟨0, 0, 10⟩, ⟨0.2, 0, 10⟩] 0.6 0.5 true
        ⟨0, 0, 10⟩ ⟨0, 0, 10⟩).x ≠ 0.1 := by
  have hin0 : InCylinder 0 0 10 (0.6 * 10 * 0.5) (0.5 * 10) 0 0 10 := by
    unfold InCylinder
    norm_num
  have hin2 : InCylinder 0.2 0 10 (0.6 * 10 * 0.5) (0.5 * 10) 0 0 10 := by
    unfold InCylinder
    norm_num
  have hbody : MeanShift_Classical_body [⟨0, 0, 10⟩, ⟨0.2, 0, 10⟩] 0.6 0.5 true
      ⟨0, 0, 10⟩ ⟨0, 0, 10⟩ = ⟨0, 0, 10⟩ := by
    unfold MeanShift_Classical_body MeanShift_Classical_scan
    dsimp only [List.foldl_cons, List.foldl_nil]
    rw [if_pos hin0, if_pos hin0]
    norm_num [P3.mk.injEq]
  refine ⟨hbody, hin2, ?_, ?_⟩
  · unfold scanPerClaimUniform
    dsimp only [List.foldl_cons, List.foldl_nil]
    rw [if_pos hin0, if_pos hin2]
    norm_num
  · rw [hbody]
    norm_num

/-- C5 is refuted on MeanShift_Classical (code bug): on the one-point cloud
[(0,0,10)] with shape ratios 1 and budget 2, meanShiftClassic and
meanShiftClassicImproved stop after exactly one iteration with the point
itself as mode, but MeanShift_Classical — whose do-while guard is inverted —
re-executes while converged and spends the whole budget of 2 iterations,
returning the same mode after 2 iterations instead of exactly one. -/
theorem c5_single_point_cloud :
    MeanShift_Classical_seedRun [⟨0, 0, 10⟩] 1 1 true 2 ⟨0, 0, 10⟩
        = (⟨0, 0, 10⟩, 2)
    ∧ meanShiftClassic_seedRun [⟨0, 0, 10⟩] 1 1 2 ⟨0, 0, 10⟩ = (⟨0, 0, 10⟩, 1)
    ∧ meanShiftClassicImproved_seedRun [⟨0, 0, 10⟩] 1 1 2 ⟨0, 0, 10⟩
        = (⟨0, 0, 10⟩, 1) := by
  have hinA : InCylinder 0 0 10 (1 * 10 * 0.5) (1 * 10) 0 0 10 := by
    unfold InCylinder
    norm_num
  refine ⟨?_, ?_, ?_⟩
  · have hbody : MeanShift_Classical_body [⟨0, 0, 10⟩] 1 1 true
        ⟨0, 0, 10⟩ ⟨0, 0, 10⟩ = ⟨0, 0, 10⟩ := by
      unfold MeanShift_Classical_body MeanShift_Classical_scan
      dsimp only [List.foldl_cons, List.foldl_nil]
      rw [if_pos hinA]
      norm_num [P3.mk.injEq]
    have hgate : classicalContinue ⟨0, 0, 10⟩ ⟨0, 0, 10⟩ ∧ 0 + 1 < 2 := by
      unfold classicalContinue
      norm_num
    unfold MeanShift_Classical_seedRun MeanShift_Classical_loop
    rw [doWhile, hbody, dif_pos hgate]
    rw [doWhile, hbody]
    rw [dif_neg (by
      intro hc
      exact absurd hc.2 (by norm_num))]
  · have hbody : meanShiftClassic_body [⟨0, 0, 10⟩] 1 1 ⟨0, 0, 10⟩
        = ⟨0, 0, 10⟩ := by
      unfold meanShiftClassic_body meanShiftClassic_scan
      dsimp only [List.foldl_cons, List.foldl_nil]
      rw [if_pos hinA]
      rw [EpanechnikovFunction_self (1 * 10) 10 (by norm_num)]
      rw [GaussFunction_self (1 * 10 * 0.5) 0 0]
      norm_num [P3.mk.injEq]
    unfold meanShiftClassic_seedRun meanShiftClassic_loop
    rw [doWhile, hbody]
    rw [dif_neg (by
      intro hc
      have h1 := hc.1
      unfold euclideanContinue at h1
      simp [Real.sqrt_zero] at h1
      exact absurd h1 (by norm_num))]
  · have hinB : intersectsCylinder 0 0 10 (1 * 10 * 0.5) (1 * 10 * 0.75) 0 0
        (10 + 1 * 10 * 0.75 * (1 / 6)) := by
      unfold intersectsCylinder
      norm_num
    have hv : calculateVerticalWeight 10 (10 + 1 * 10 * 0.75 * (1 / 6))
        (1 * 10 * 0.75) = 8 / 9 := by
      unfold calculateVerticalWeight epanechnikov
      rw [show (10 + 1 * 10 * 0.75 * (1 / 6) - 10 : ℝ) = 5 / 4 by norm_num]
      rw [abs_of_nonneg (by norm_num)]
      norm_num
    have hg : calculateHorizontalWeight 0 0 (1 * 10 * 0.5) 0 0 = 1 := by
      unfold calculateHorizontalWeight gauss hypot
      simp [Real.exp_zero]
    have hbody : meanShiftClassicImproved_body [⟨0, 0, 10⟩] 1 1 ⟨0, 0, 10⟩
        = ⟨0, 0, 10⟩ := by
      unfold meanShiftClassicImproved_body meanShiftClassicImproved_scan
      dsimp only [List.foldl_cons, List.foldl_nil]
      rw [if_pos hinB, hv, hg]
      norm_num [P3.mk.injEq]
    unfold meanShiftClassicImproved_seedRun meanShiftClassicImproved_loop
    rw [doWhile, hbody]
    rw [dif_neg (by
      intro hc
      have h1 := hc.1
      unfold euclideanContinue at h1
      simp [Real.sqrt_zero] at h1
      exact absurd h1 (by norm_num))]
